import Mathlib

/-!
Verification of the pixel-format decoding and frame-category classification
subsystem of the realsense-rust repository.

The Rust source embedded here:
  * src/frame/pixel.rs   — the pixel addressing engine `get_pixel` and the
    `PixelKind` tagged union of borrowed pixel views;
  * src/frame/prelude.rs — the `FrameCategory` and `FrameEx` trait contracts.

Modelling conventions:
  * A Rust reference `&u8` / `&u16` / `&f32` returned inside a `PixelKind`
    is modelled as the offset it points at inside the reinterpreted view of
    the frame buffer (a byte offset for the `u8` views, an element offset
    for the `u16` / `f32` views).  The addressing engine performs unchecked
    reads, so the offsets are a complete description of its behaviour; the
    value behind a reference is determined by the offset and the buffer.
  * The `panic!("Unsupported video format.")` arm of `get_pixel` is modelled
    by returning `none`; every supported arm returns `some` pixel.
  * Machine `usize` arithmetic is modelled with `Nat`; every offset
    computation in the source uses only additions, multiplications and
    integer divisions of in-range quantities, so no wrap-around occurs.
-/

/-- Modelled from the spec and the SDK format list: the `Rs2Format` enum of
crate `kind` is not part of the sources under scrutiny (only `pixel.rs`,
which matches on it, is).  The thirteen formats named by the match arms of
`get_pixel` are listed first; the remaining constructors are the other
librealsense formats, which fall into the catch-all arm. -/
inductive Rs2Format where
  | Yuyv
  | Uyvy
  | Bgr8
  | Bgra8
  | Rgb8
  | Rgba8
  | Raw8
  | Y8
  | Y16
  | Z16
  | Distance
  | Disparity32
  | Xyz32F
  | Any
  | Disparity16
  | MotionRaw
  | MotionXyz32F
  | GpioRaw
  | SixDof
  | Raw10
  | Raw16
  | Mjpeg
  | Y10BPack
  | Y8I
  | Y12I
  | Inzi
  | Invi
  | W10
  | Z16H
  | Fg
  | Y411
  deriving DecidableEq

/-- `PixelKind` from src/frame/pixel.rs: the tagged union of typed pixel
views.  Each field holds, in source declaration order, the offset modelling
the corresponding borrowed reference (byte offsets for the 1-byte views,
`u16`-element offsets for `Y16`/`Z16`, `f32`-element offsets for
`Distance`/`Disparity32`/`Xyz32f`).  Field order per constructor follows the
Rust declaration: `Yuyv{y,u,v}`, `Uyvy{y,u,v}`, `Bgr8{b,g,r}`,
`Bgra8{b,g,r,a}`, `Rgb8{r,g,b}`, `Rgba8{r,g,b,a}`, `Raw8{val}`, `Y8{y}`,
`Y16{y}`, `Z16{depth}`, `Distance{distance}`, `Disparity32{disparity}`,
`Xyz32f{x,y,z}`. -/
inductive PixelKind where
  | Yuyv (y u v : Nat)
  | Uyvy (y u v : Nat)
  | Bgr8 (b g r : Nat)
  | Bgra8 (b g r a : Nat)
  | Rgb8 (r g b : Nat)
  | Rgba8 (r g b a : Nat)
  | Raw8 (val : Nat)
  | Y8 (y : Nat)
  | Y16 (y : Nat)
  | Z16 (depth : Nat)
  | Distance (distance : Nat)
  | Disparity32 (disparity : Nat)
  | Xyz32f (x y z : Nat)
  deriving DecidableEq

/-- `get_pixel` from src/frame/pixel.rs.  The parameters mirror the Rust
signature `(format, data_size_in_bytes, data, stride_in_bytes, col, row)`;
the `data` pointer itself is represented by the offsets stored in the
result (see the module header), and `data_size_in_bytes` only bounds the
views built by `slice::from_raw_parts` — the source indexes them with
`get_unchecked`, so it never influences which offsets are read.

Each arm reproduces the source arithmetic verbatim:
  * `Yuyv`/`Uyvy`: `offset = row * stride + (col / 2) * 4` with integer
    division, the Y byte chosen by the parity of `row`;
  * `Rgb8`/`Rgba8` build the `Bgr8`/`Bgra8` constructors with named fields
    `r: offset, g: offset + 1, b: offset + 2(, a: offset + 3)`, which in the
    positional field order `b, g, r(, a)` of the constructor reads
    `Bgr8 (offset+2) (offset+1) offset` and
    `Bgra8 (offset+2) (offset+1) offset (offset+3)`;
  * the 2-byte and 4-byte formats divide the stride by the element size and
    index the reinterpreted element view;
  * every other format hits the catch-all arm, a fatal unsupported-format
    condition modelled as `none`. -/
def get_pixel (format : Rs2Format) (data_size_in_bytes : Nat)
    (stride_in_bytes : Nat) (col : Nat) (row : Nat) : Option PixelKind :=
  match format with
  | .Yuyv =>
    let offset := row * stride_in_bytes + col / 2 * 4
    let y := if row % 2 = 0 then offset else offset + 2
    some (.Yuyv y (offset + 1) (offset + 3))
  | .Uyvy =>
    let offset := row * stride_in_bytes + col / 2 * 4
    let y := if row % 2 = 0 then offset + 1 else offset + 3
    some (.Uyvy y offset (offset + 2))
  | .Bgr8 =>
    let offset := row * stride_in_bytes + col * 3
    some (.Bgr8 offset (offset + 1) (offset + 2))
  | .Bgra8 =>
    let offset := row * stride_in_bytes + col * 4
    some (.Bgra8 offset (offset + 1) (offset + 2) (offset + 3))
  | .Rgb8 =>
    let offset := row * stride_in_bytes + col * 3
    some (.Bgr8 (offset + 2) (offset + 1) offset)
  | .Rgba8 =>
    let offset := row * stride_in_bytes + col * 4
    some (.Bgra8 (offset + 2) (offset + 1) offset (offset + 3))
  | .Raw8 =>
    let offset := row * stride_in_bytes + col
    some (.Raw8 offset)
  | .Y8 =>
    let offset := row * stride_in_bytes + col
    some (.Y8 offset)
  | .Y16 =>
    let stride := stride_in_bytes / 2
    let offset := row * stride + col
    some (.Y16 offset)
  | .Z16 =>
    let stride := stride_in_bytes / 2
    let offset := row * stride + col
    some (.Z16 offset)
  | .Distance =>
    let stride := stride_in_bytes / 4
    let offset := row * stride + col
    some (.Distance offset)
  | .Disparity32 =>
    let stride := stride_in_bytes / 4
    let offset := row * stride + col
    some (.Disparity32 offset)
  | .Xyz32F =>
    let stride := stride_in_bytes / 4
    let offset := row * stride + col
    some (.Xyz32f offset (offset + 1) (offset + 2))
  | _ => none

/-- Claim C1: for formats Yuyv and Uyvy, `get_pixel` computes the byte base
offset `base = row*stride + (col/2)*4` with integer division and selects the
Y byte by the parity of `row`: for Yuyv, Y is at `base` on even rows and
`base + 2` on odd rows, with U at `base + 1` and V at `base + 3`; for Uyvy,
Y is at `base + 1` on even rows and `base + 3` on odd rows, with U at `base`
and V at `base + 2`. -/
theorem yuyv_uyvy_row_parity_addressing (dsz stride col row : Nat) :
    get_pixel .Yuyv dsz stride col row
      = some (.Yuyv
          (if row % 2 = 0 then row * stride + col / 2 * 4
           else row * stride + col / 2 * 4 + 2)
          (row * stride + col / 2 * 4 + 1)
          (row * stride + col / 2 * 4 + 3))
    ∧ get_pixel .Uyvy dsz stride col row
      = some (.Uyvy
          (if row % 2 = 0 then row * stride + col / 2 * 4 + 1
           else row * stride + col / 2 * 4 + 3)
          (row * stride + col / 2 * 4)
          (row * stride + col / 2 * 4 + 2)) :=
  ⟨rfl, rfl⟩

/-- Claim C3: for format Rgb8, `get_pixel` returns the `Bgr8` constructor
(not a distinct `Rgb8` one) with swapped field bindings — with
`offset = row*stride + col*3`, the `r` field (third positional field) is
bound to `offset`, `g` to `offset + 1` and `b` (first positional field) to
`offset + 2`; likewise Rgba8 returns the `Bgra8` constructor with, for
`offset = row*stride + col*4`, `r` bound to `offset`, `g` to `offset + 1`,
`b` to `offset + 2` and `a` to `offset + 3`. -/
theorem rgb_formats_reuse_bgr_variants (dsz stride col row : Nat) :
    get_pixel .Rgb8 dsz stride col row
      = some (.Bgr8 (row * stride + col * 3 + 2)
                    (row * stride + col * 3 + 1)
                    (row * stride + col * 3))
    ∧ get_pixel .Rgba8 dsz stride col row
      = some (.Bgra8 (row * stride + col * 4 + 2)
                     (row * stride + col * 4 + 1)
                     (row * stride + col * 4)
                     (row * stride + col * 4 + 3)) :=
  ⟨rfl, rfl⟩

/-- Claim C4: the offsets of the non-interleaved formats follow the
addressing table: Bgr8 reads `b,g,r` at byte offsets
`row*stride + col*3, +1, +2`; Bgra8 reads `b,g,r,a` consecutively from
`row*stride + col*4`; Raw8 and Y8 read the byte at `row*stride + col`;
Y16 and Z16 read the 2-byte element at element offset
`row*(stride/2) + col`; Distance and Disparity32 read the 4-byte element at
element offset `row*(stride/4) + col`; Xyz32f reads the three consecutive
4-byte elements at `row*(stride/4) + col, +1, +2` as `x,y,z`. -/
theorem noninterleaved_offset_table (dsz stride col row : Nat) :
    get_pixel .Bgr8 dsz stride col row
      = some (.Bgr8 (row * stride + col * 3) (row * stride + col * 3 + 1)
                    (row * stride + col * 3 + 2))
    ∧ get_pixel .Bgra8 dsz stride col row
      = some (.Bgra8 (row * stride + col * 4) (row * stride + col * 4 + 1)
                     (row * stride + col * 4 + 2) (row * stride + col * 4 + 3))
    ∧ get_pixel .Raw8 dsz stride col row = some (.Raw8 (row * stride + col))
    ∧ get_pixel .Y8 dsz stride col row = some (.Y8 (row * stride + col))
    ∧ get_pixel .Y16 dsz stride col row = some (.Y16 (row * (stride / 2) + col))
    ∧ get_pixel .Z16 dsz stride col row = some (.Z16 (row * (stride / 2) + col))
    ∧ get_pixel .Distance dsz stride col row
      = some (.Distance (row * (stride / 4) + col))
    ∧ get_pixel .Disparity32 dsz stride col row
      = some (.Disparity32 (row * (stride / 4) + col))
    ∧ get_pixel .Xyz32F dsz stride col row
      = some (.Xyz32f (row * (stride / 4) + col) (row * (stride / 4) + col + 1)
                      (row * (stride / 4) + col + 2)) :=
  ⟨rfl, rfl, rfl, rfl, rfl, rfl, rfl, rfl, rfl⟩

/-- The supported-format predicate: exactly the thirteen formats matched by
a non-catch-all arm of `get_pixel` in src/frame/pixel.rs. -/
def supportedFormat (format : Rs2Format) : Bool :=
  match format with
  | .Yuyv | .Uyvy | .Bgr8 | .Bgra8 | .Rgb8 | .Rgba8 | .Raw8 | .Y8
  | .Y16 | .Z16 | .Distance | .Disparity32 | .Xyz32F => true
  | _ => false

/-- Claim C5: `get_pixel` hits the fatal unsupported-format arm (modelled by
`none`) exactly when the format lies outside the thirteen supported formats
{Yuyv, Uyvy, Bgr8, Bgra8, Rgb8, Rgba8, Raw8, Y8, Y16, Z16, Distance,
Disparity32, Xyz32F}; for no unsupported format does it return a pixel. -/
theorem unsupported_format_fatal_iff (format : Rs2Format)
    (dsz stride col row : Nat) :
    get_pixel format dsz stride col row = none ↔ supportedFormat format = false := by
  cases format <;> simp [get_pixel, supportedFormat]

/-- Claim C9 helper: a chroma group is 4 bytes shared by two adjacent
columns, so `get_pixel` can only depend on the column through `col / 2`. -/
theorem yuyv_uyvy_depends_on_half_col (dsz stride row c c' : Nat)
    (h : c / 2 = c' / 2) :
    get_pixel .Yuyv dsz stride c row = get_pixel .Yuyv dsz stride c' row
    ∧ get_pixel .Uyvy dsz stride c row = get_pixel .Uyvy dsz stride c' row := by
  simp [get_pixel, h]

/-- Claim C9: for formats Yuyv and Uyvy the pixel returned by `get_pixel`
depends on the column only through `col / 2`: for every row and every `k`
with `2k + 1 < width`, the calls at columns `2k` and `2k + 1` return pixels
holding exactly the same Y, U and V offsets, so the two horizontally
adjacent pixels of one 4-byte chroma group are reported identical. -/
theorem chroma_pair_pixels_identical (width dsz stride row k : Nat)
    (h : 2 * k + 1 < width) :
    get_pixel .Yuyv dsz stride (2 * k) row
      = get_pixel .Yuyv dsz stride (2 * k + 1) row
    ∧ get_pixel .Uyvy dsz stride (2 * k) row
      = get_pixel .Uyvy dsz stride (2 * k + 1) row :=
  yuyv_uyvy_depends_on_half_col dsz stride row (2 * k) (2 * k + 1) (by omega)

/-- Closed witness for claim C9 at `width = 4`, `k = 1`, `row = 1`,
`stride = 8`, `data_size = 16`. -/
theorem chroma_pair_pixels_identical_witness :
    get_pixel .Yuyv 16 8 2 1 = get_pixel .Yuyv 16 8 3 1
    ∧ get_pixel .Uyvy 16 8 2 1 = get_pixel .Uyvy 16 8 3 1 :=
  chroma_pair_pixels_identical 4 16 8 1 1 (by decide)

/-- Recognizer for the two pixel constructors that `get_pixel` never
builds. -/
def isRgbVariant (px : PixelKind) : Bool :=
  match px with
  | .Rgb8 _ _ _ => true
  | .Rgba8 _ _ _ _ => true
  | _ => false

/-- Claim C10: the `Rgb8` and `Rgba8` constructors of `PixelKind` are
unreachable through the addressing engine — whenever `get_pixel` returns a
pixel, its constructor is one of the other eleven, even when the declared
format is Rgb8 or Rgba8. -/
theorem rgb_variants_unreachable (format : Rs2Format)
    (dsz stride col row : Nat) (px : PixelKind)
    (h : get_pixel format dsz stride col row = some px) :
    isRgbVariant px = false := by
  cases format <;> simp only [get_pixel, Option.some.injEq] at h
  all_goals first
    | exact absurd h (by simp)
    | (subst h; rfl)

/-- Closed witness for claim C10 at format Rgb8 on a concrete geometry. -/
theorem rgb_variants_unreachable_witness :
    isRgbVariant (.Bgr8 5 4 3) = false :=
  rgb_variants_unreachable .Rgb8 12 6 1 0 (.Bgr8 5 4 3) rfl

/-- Element size of the view `get_pixel` reinterprets the buffer as:
`u16` for Y16/Z16, `f32` for Distance/Disparity32/Xyz32f, `u8` otherwise. -/
def elemSize (format : Rs2Format) : Nat :=
  match format with
  | .Y16 | .Z16 => 2
  | .Distance | .Disparity32 | .Xyz32F => 4
  | _ => 1

/-- The caller-side minimal stride of the spec for each supported format:
`width` times the format's bytes-per-pixel, except that the interleaved
Yuyv/Uyvy formats need 4 bytes per (possibly incomplete) pair of columns. -/
def minStride (format : Rs2Format) (width : Nat) : Nat :=
  match format with
  | .Yuyv | .Uyvy => 4 * ((width + 1) / 2)
  | .Bgr8 | .Rgb8 => 3 * width
  | .Bgra8 | .Rgba8 => 4 * width
  | .Raw8 | .Y8 => width
  | .Y16 | .Z16 => 2 * width
  | .Distance | .Disparity32 => 4 * width
  | .Xyz32F => 12 * width
  | _ => 0

/-- The byte footprint of the references held by a pixel value: one pair
`(byte offset, element width)` per field, each field being exactly one
`get_unchecked` read of the source.  Element offsets of the `u16`/`f32`
views are converted to byte offsets by the element size. -/
def pixelReads (px : PixelKind) : List (Nat × Nat) :=
  match px with
  | .Yuyv y u v => [(y, 1), (u, 1), (v, 1)]
  | .Uyvy y u v => [(y, 1), (u, 1), (v, 1)]
  | .Bgr8 b g r => [(b, 1), (g, 1), (r, 1)]
  | .Bgra8 b g r a => [(b, 1), (g, 1), (r, 1), (a, 1)]
  | .Rgb8 r g b => [(r, 1), (g, 1), (b, 1)]
  | .Rgba8 r g b a => [(r, 1), (g, 1), (b, 1), (a, 1)]
  | .Raw8 v => [(v, 1)]
  | .Y8 y => [(y, 1)]
  | .Y16 y => [(2 * y, 2)]
  | .Z16 d => [(2 * d, 2)]
  | .Distance d => [(4 * d, 4)]
  | .Disparity32 d => [(4 * d, 4)]
  | .Xyz32f x y z => [(4 * x, 4), (4 * y, 4), (4 * z, 4)]

/-- Every read of the pixel value stays inside a buffer of `dsz` bytes. -/
def readsWithin (px : PixelKind) (dsz : Nat) : Prop :=
  ∀ p ∈ pixelReads px, p.1 + p.2 ≤ dsz

/-- A byte offset that stays inside its row stays inside the buffer. -/
theorem read_le_of_intra_row {row height stride dsz a : Nat}
    (hrow : row < height) (hsize : height * stride ≤ dsz)
    (ha : a ≤ stride) : row * stride + a ≤ dsz := by
  have h1 : row + 1 ≤ height := hrow
  have h2 : (row + 1) * stride ≤ height * stride := mul_le_mul_right' h1 stride
  rw [add_one_mul] at h2
  omega

/-- Claim C2: for every supported format and every geometry meeting the
caller-side preconditions (`col < width`, `row < height`, stride at least
`minStride`, stride a multiple of the element size, and
`height * stride ≤ data_size_bytes`), every byte address that `get_pixel`
reads — including at the boundary `col = width - 1`, `row = height - 1` —
satisfies `offset + element width ≤ data_size_bytes`. -/
theorem get_pixel_reads_in_bounds (format : Rs2Format)
    (width height stride dsz col row : Nat) (px : PixelKind)
    (hcol : col < width) (hrow : row < height)
    (hstride : minStride format width ≤ stride)
    (hdvd : elemSize format ∣ stride)
    (hsize : height * stride ≤ dsz)
    (hpx : get_pixel format dsz stride col row = some px) :
    readsWithin px dsz := by
  cases format
  case Yuyv =>
    simp only [get_pixel, Option.some.injEq] at hpx
    subst hpx
    simp only [minStride] at hstride
    have hm := read_le_of_intra_row (a := col / 2 * 4 + 4) hrow hsize (by omega)
    intro p hp
    simp only [pixelReads, List.mem_cons, List.not_mem_nil, or_false] at hp
    rcases hp with rfl | rfl | rfl <;> dsimp only
    · split <;> omega
    · omega
    · omega
  case Uyvy =>
    simp only [get_pixel, Option.some.injEq] at hpx
    subst hpx
    simp only [minStride] at hstride
    have hm := read_le_of_intra_row (a := col / 2 * 4 + 4) hrow hsize (by omega)
    intro p hp
    simp only [pixelReads, List.mem_cons, List.not_mem_nil, or_false] at hp
    rcases hp with rfl | rfl | rfl <;> dsimp only
    · split <;> omega
    · omega
    · omega
  case Bgr8 =>
    simp only [get_pixel, Option.some.injEq] at hpx
    subst hpx
    simp only [minStride] at hstride
    have hm := read_le_of_intra_row (a := col * 3 + 3) hrow hsize (by omega)
    intro p hp
    simp only [pixelReads, List.mem_cons, List.not_mem_nil, or_false] at hp
    rcases hp with rfl | rfl | rfl <;> dsimp only <;> omega
  case Rgb8 =>
    simp only [get_pixel, Option.some.injEq] at hpx
    subst hpx
    simp only [minStride] at hstride
    have hm := read_le_of_intra_row (a := col * 3 + 3) hrow hsize (by omega)
    intro p hp
    simp only [pixelReads, List.mem_cons, List.not_mem_nil, or_false] at hp
    rcases hp with rfl | rfl | rfl <;> dsimp only <;> omega
  case Bgra8 =>
    simp only [get_pixel, Option.some.injEq] at hpx
    subst hpx
    simp only [minStride] at hstride
    have hm := read_le_of_intra_row (a := col * 4 + 4) hrow hsize (by omega)
    intro p hp
    simp only [pixelReads, List.mem_cons, List.not_mem_nil, or_false] at hp
    rcases hp with rfl | rfl | rfl | rfl <;> dsimp only <;> omega
  case Rgba8 =>
    simp only [get_pixel, Option.some.injEq] at hpx
    subst hpx
    simp only [minStride] at hstride
    have hm := read_le_of_intra_row (a := col * 4 + 4) hrow hsize (by omega)
    intro p hp
    simp only [pixelReads, List.mem_cons, List.not_mem_nil, or_false] at hp
    rcases hp with rfl | rfl | rfl | rfl <;> dsimp only <;> omega
  case Raw8 =>
    simp only [get_pixel, Option.some.injEq] at hpx
    subst hpx
    simp only [minStride] at hstride
    have hm := read_le_of_intra_row (a := col + 1) hrow hsize (by omega)
    intro p hp
    simp only [pixelReads, List.mem_singleton] at hp
    subst hp
    dsimp only
    omega
  case Y8 =>
    simp only [get_pixel, Option.some.injEq] at hpx
    subst hpx
    simp only [minStride] at hstride
    have hm := read_le_of_intra_row (a := col + 1) hrow hsize (by omega)
    intro p hp
    simp only [pixelReads, List.mem_singleton] at hp
    subst hp
    dsimp only
    omega
  case Y16 =>
    simp only [get_pixel, Option.some.injEq] at hpx
    subst hpx
    simp only [minStride] at hstride
    simp only [elemSize] at hdvd
    obtain ⟨s2, hs2⟩ := hdvd
    have hdiv : stride / 2 = s2 := by omega
    intro p hp
    simp only [pixelReads, List.mem_singleton] at hp
    subst hp
    dsimp only
    have key : 2 * (row * (stride / 2) + col) + 2 = row * stride + (2 * col + 2) := by
      rw [hdiv, hs2]; ring
    rw [key]
    exact read_le_of_intra_row hrow hsize (by omega)
  case Z16 =>
    simp only [get_pixel, Option.some.injEq] at hpx
    subst hpx
    simp only [minStride] at hstride
    simp only [elemSize] at hdvd
    obtain ⟨s2, hs2⟩ := hdvd
    have hdiv : stride / 2 = s2 := by omega
    intro p hp
    simp only [pixelReads, List.mem_singleton] at hp
    subst hp
    dsimp only
    have key : 2 * (row * (stride / 2) + col) + 2 = row * stride + (2 * col + 2) := by
      rw [hdiv, hs2]; ring
    rw [key]
    exact read_le_of_intra_row hrow hsize (by omega)
  case Distance =>
    simp only [get_pixel, Option.some.injEq] at hpx
    subst hpx
    simp only [minStride] at hstride
    simp only [elemSize] at hdvd
    obtain ⟨s4, hs4⟩ := hdvd
    have hdiv : stride / 4 = s4 := by omega
    intro p hp
    simp only [pixelReads, List.mem_singleton] at hp
    subst hp
    dsimp only
    have key : 4 * (row * (stride / 4) + col) + 4 = row * stride + (4 * col + 4) := by
      rw [hdiv, hs4]; ring
    rw [key]
    exact read_le_of_intra_row hrow hsize (by omega)
  case Disparity32 =>
    simp only [get_pixel, Option.some.injEq] at hpx
    subst hpx
    simp only [minStride] at hstride
    simp only [elemSize] at hdvd
    obtain ⟨s4, hs4⟩ := hdvd
    have hdiv : stride / 4 = s4 := by omega
    intro p hp
    simp only [pixelReads, List.mem_singleton] at hp
    subst hp
    dsimp only
    have key : 4 * (row * (stride / 4) + col) + 4 = row * stride + (4 * col + 4) := by
      rw [hdiv, hs4]; ring
    rw [key]
    exact read_le_of_intra_row hrow hsize (by omega)
  case Xyz32F =>
    simp only [get_pixel, Option.some.injEq] at hpx
    subst hpx
    simp only [minStride] at hstride
    simp only [elemSize] at hdvd
    obtain ⟨s4, hs4⟩ := hdvd
    have hdiv : stride / 4 = s4 := by omega
    have key : ∀ t : Nat, 4 * (row * (stride / 4) + col + t) + 4
        = row * stride + (4 * col + 4 * t + 4) := by
      intro t; rw [hdiv, hs4]; ring
    intro p hp
    simp only [pixelReads, List.mem_cons, List.not_mem_nil, or_false] at hp
    rcases hp with rfl | rfl | rfl <;> dsimp only
    · rw [show 4 * (row * (stride / 4) + col) + 4
          = row * stride + (4 * col + 4 * 0 + 4) by simpa using key 0]
      exact read_le_of_intra_row hrow hsize (by omega)
    · rw [key 1]
      exact read_le_of_intra_row hrow hsize (by omega)
    · rw [key 2]
      exact read_le_of_intra_row hrow hsize (by omega)
  all_goals simp [get_pixel] at hpx

/-- Closed witness for claim C2: format Yuyv on a 3×2 image with stride 8
and a 16-byte buffer, at the boundary pixel `col = 2`, `row = 1`. -/
theorem get_pixel_reads_in_bounds_witness : readsWithin (.Yuyv 14 13 15) 16 :=
  get_pixel_reads_in_bounds .Yuyv 3 2 8 16 2 1 (.Yuyv 14 13 15)
    (by decide) (by decide) (by decide) (by decide) (by decide) rfl

/-- Modelled from the spec: the `Rs2Extension` tags of the frame categories
named in §2/§4.2 (video, depth, disparity, points, pose, motion); the enum
itself lives in the `kind` module, which is not among the sources under
scrutiny — only the `FrameCategory` trait of src/frame/prelude.rs that
returns it is. -/
inductive Rs2Extension where
  | VideoFrame
  | DepthFrame
  | DisparityFrame
  | Points
  | PoseFrame
  | MotionFrame
  deriving DecidableEq

/-- Modelled from the spec: the `Rs2StreamKind` tags of the logical sensor
streams (§6, glossary); the enum itself is outside the sources under
scrutiny. -/
inductive Rs2StreamKind where
  | Any
  | Depth
  | Color
  | Infrared
  | Fisheye
  | Gyro
  | Accel
  | Pose
  deriving DecidableEq

/-- A frame category per src/frame/prelude.rs (`FrameCategory`): each
categorized frame type statically declares `extension()` and `kind()`; the
`kindSensitive` flag records whether the two-tier check of the spec applies
the kind comparison for this category ("where the check applies", §3). -/
structure FrameCategorySpec where
  extension : Rs2Extension
  kind : Rs2StreamKind
  kindSensitive : Bool
  deriving DecidableEq

/-- Modelled from the spec: an opaque frame handle carrying the two
runtime-queried tags the classifier consumes (`query_extension`,
`query_stream_kind` of §6). -/
structure FrameHandle where
  extension : Rs2Extension
  streamKind : Rs2StreamKind
  deriving DecidableEq

/-- `has_correct_kind` of the `FrameCategory` trait: queries the live
handle's stream kind and compares it against the category's declared
kind. -/
def has_correct_kind (cat : FrameCategorySpec) (h : FrameHandle) : Bool :=
  decide (h.streamKind = cat.kind)

/-- Modelled from the spec: the classification-mismatch error of §7,
reported with both the expected and the actual tag. -/
inductive ClassificationError where
  | extensionMismatch (expected actual : Rs2Extension)
  | kindMismatch (expected actual : Rs2StreamKind)
  deriving DecidableEq

/-- A typed frame wrapper: after successful classification it owns the
handle (the handle is stored inside it) for its declared category. -/
structure TypedFrame where
  category : FrameCategorySpec
  handle : FrameHandle
  deriving DecidableEq

/-- Modelled from the spec: the generic "try build typed frame from opaque
handle" operation of §4.2 — (a) query the handle's extension, (b) compare
against the category's declared extension, (c) on extension match invoke
`has_correct_kind` for kind-sensitive categories, (d) on full match
transfer ownership of the handle into the new typed wrapper; on mismatch
return an error identifying both the expected and actual extension/kind.
The `Except` result makes the all-or-nothing shape explicit: an error
carries no wrapper, so the caller keeps the handle unchanged. -/
def try_construct (cat : FrameCategorySpec) (h : FrameHandle) :
    Except ClassificationError TypedFrame :=
  if h.extension = cat.extension then
    if cat.kindSensitive then
      if has_correct_kind cat h then
        Except.ok { category := cat, handle := h }
      else
        Except.error (.kindMismatch cat.kind h.streamKind)
    else
      Except.ok { category := cat, handle := h }
  else
    Except.error (.extensionMismatch cat.extension h.extension)

/-- Full success of typed-frame construction: the wrapper holds exactly the
supplied handle under the requested category, the handle's queried
extension equals the declared one, and for kind-sensitive categories
`has_correct_kind` holds. -/
def constructionFullSuccess (cat : FrameCategorySpec) (h : FrameHandle) : Prop :=
  try_construct cat h = Except.ok { category := cat, handle := h }
  ∧ h.extension = cat.extension
  ∧ (cat.kindSensitive = true → has_correct_kind cat h = true)

/-- Full failure of typed-frame construction: the result is an error
identifying both the expected (declared) and actual (queried) extension or
kind, and no wrapper — hence no partial ownership transfer — exists. -/
def constructionFullFailure (cat : FrameCategorySpec) (h : FrameHandle) : Prop :=
  try_construct cat h = Except.error (.extensionMismatch cat.extension h.extension)
  ∨ try_construct cat h = Except.error (.kindMismatch cat.kind h.streamKind)

/-- Claim C6: for every frame category and every opaque handle, typed-frame
construction either fully succeeds — the queried extension equals the
declared one, `has_correct_kind` holds for kind-sensitive categories, and
the handle's ownership moves into the wrapper — or fully fails with an
error naming both the expected and actual extension/kind while the handle
stays with the caller; no partial wrapper state is observable. -/
theorem typed_frame_construction_all_or_nothing
    (cat : FrameCategorySpec) (h : FrameHandle) :
    constructionFullSuccess cat h ∨ constructionFullFailure cat h := by
  by_cases hext : h.extension = cat.extension
  · by_cases hks : cat.kindSensitive = true
    · by_cases hkind : has_correct_kind cat h = true
      · exact Or.inl ⟨by simp [try_construct, hext, hks, hkind], hext, fun _ => hkind⟩
      · exact Or.inr (Or.inr (by simp [try_construct, hext, hks, hkind]))
    · refine Or.inl ⟨by simp [try_construct, hext, hks], hext, fun hc => absurd hc hks⟩
  · exact Or.inr (Or.inl (by simp [try_construct, hext]))

/-- Closed witness for claim C6: a kind-sensitive depth category applied to
a matching handle. -/
theorem typed_frame_construction_all_or_nothing_witness :
    constructionFullSuccess ⟨.DepthFrame, .Depth, true⟩ ⟨.DepthFrame, .Depth⟩
    ∨ constructionFullFailure ⟨.DepthFrame, .Depth, true⟩ ⟨.DepthFrame, .Depth⟩ :=
  typed_frame_construction_all_or_nothing ⟨.DepthFrame, .Depth, true⟩
    ⟨.DepthFrame, .Depth⟩

/-- Modelled from the spec: the metadata kinds of §4.3/§6; the enum itself
is outside the sources under scrutiny. -/
inductive Rs2FrameMetadata where
  | FrameCounter
  | FrameTimestamp
  | SensorTimestamp
  | ActualExposure
  | GainLevel
  | TimeOfArrival
  deriving DecidableEq

/-- Modelled from the spec: the per-frame metadata surface a handle exposes
through the collaborator queries of §6 — `query_metadata` returns an
optional integer per kind, and a kind is supported exactly when the native
layer has a value for it. -/
structure FrameMetadataView where
  query : Rs2FrameMetadata → Option Int

/-- `supports_metadata` of the `FrameEx` trait (src/frame/prelude.rs),
modelled from the spec: the pure predicate telling whether the metadata
kind is supported by this frame instance. -/
def supports_metadata (f : FrameMetadataView) (metadata_kind : Rs2FrameMetadata) :
    Bool :=
  (f.query metadata_kind).isSome

/-- `metadata` of the `FrameEx` trait (src/frame/prelude.rs), modelled from
the spec: returns `none` — an explicit absent value, not an error — when
the kind is unsupported by the frame instance, and the value otherwise. -/
def metadata (f : FrameMetadataView) (metadata_kind : Rs2FrameMetadata) :
    Option Int :=
  if supports_metadata f metadata_kind then f.query metadata_kind else none

/-- Claim C7: for every frame instance and metadata kind `k`,
`supports_metadata k` is true exactly when `metadata k` returns a present
value; an unsupported kind yields the explicit absent result `none`, which
is a value of the success type, distinct from any error path. -/
theorem supports_metadata_iff_metadata_some
    (f : FrameMetadataView) (k : Rs2FrameMetadata) :
    supports_metadata f k = true ↔ (metadata f k).isSome = true := by
  unfold metadata
  by_cases hs : supports_metadata f k = true
  · simpa [hs] using (by unfold supports_metadata at hs; exact hs)
  · simp [hs]

/-- Closed witness for claim C7 on a concrete frame whose native layer
reports a frame counter but no exposure. -/
theorem supports_metadata_iff_metadata_some_witness :
    supports_metadata ⟨fun k => if k = .FrameCounter then some 42 else none⟩
        .FrameCounter = true
      ↔ (metadata ⟨fun k => if k = .FrameCounter then some 42 else none⟩
        .FrameCounter).isSome = true :=
  supports_metadata_iff_metadata_some
    ⟨fun k => if k = .FrameCounter then some 42 else none⟩ .FrameCounter
